import Mathlib

set_option autoImplicit false

/-!
Verification of the xiaolian real-time voice pipeline
(`apps/server/app/services/pipeline.py` and the providers it orchestrates)
against its natural-language specification.

The Python source is shallowly embedded: byte strings become `List Nat`,
the `asyncio` session state becomes an explicit state record, and the
external capabilities (VAD model, ASR model inference, the OpenAI client,
the edge-tts service) become oracle functions supplied as parameters.
-/

namespace Xiaolian

universe u

variable {α : Type u}

/-- Constant `VoicePipeline.VAD_CHUNK_SIZE` (pipeline.py line 24): the fixed frame
size, in bytes, consumed by voice-activity detection. -/
def VAD_CHUNK_SIZE : Nat := 1024

/-- The slicing loop shared by `VoicePipeline.run` (pipeline.py lines 69-72)
and `SenseVoiceStreamHandler._process_buffer` (asr.py lines 95-97, with
`is_final=False`):
`while len(buf) >= F: chunk = buf[:F]; buf = buf[F:]; emit(chunk)`.
Returns the emitted frames in order together with the remaining buffer.
The `0 < F` conjunct is vacuous at the call sites (`F` is 1024 or 9600)
and only justifies termination. -/
def sliceLoop (F : Nat) (buf : List α) : List (List α) × List α :=
  if h : 0 < F ∧ F ≤ buf.length then
    let rest := sliceLoop F (buf.drop F)
    (buf.take F :: rest.1, rest.2)
  else
    ([], buf)
termination_by buf.length
decreasing_by simp only [List.length_drop]; omega

theorem sliceLoop_eq (F : Nat) (buf : List α) :
    sliceLoop F buf =
      if 0 < F ∧ F ≤ buf.length then
        ((buf.take F) :: (sliceLoop F (buf.drop F)).1, (sliceLoop F (buf.drop F)).2)
      else ([], buf) := by
  rw [sliceLoop]
  split <;> rfl

/-- Concatenating the emitted frames and the leftover buffer recovers the
input: no byte is lost, duplicated or reordered by the slicing loop. -/
theorem sliceLoop_join (F : Nat) (buf : List α) :
    ((sliceLoop F buf).1).flatten ++ (sliceLoop F buf).2 = buf := by
  induction buf using sliceLoop.induct F with
  | case1 buf h ih =>
    rw [sliceLoop_eq, if_pos h]
    simp only [List.flatten_cons, List.append_assoc, ih]
    exact List.take_append_drop F buf
  | case2 buf h =>
    rw [sliceLoop_eq, if_neg h]
    simp

/-- Every emitted frame has exactly `F` bytes. -/
theorem sliceLoop_frames_length (F : Nat) (buf : List α) :
    ∀ f ∈ (sliceLoop F buf).1, f.length = F := by
  induction buf using sliceLoop.induct F with
  | case1 buf h ih =>
    rw [sliceLoop_eq, if_pos h]
    intro f hf
    rcases List.mem_cons.mp hf with hf | hf
    · subst hf; exact List.length_take_of_le h.2
    · exact ih f hf
  | case2 buf h =>
    rw [sliceLoop_eq, if_neg h]
    simp

/-- The number of emitted frames is `⌊ buf.length / F ⌋` and the leftover
buffer holds exactly `buf.length mod F` bytes. -/
theorem sliceLoop_count (F : Nat) (hF : 0 < F) (buf : List α) :
    ((sliceLoop F buf).1).length = buf.length / F ∧
      ((sliceLoop F buf).2).length = buf.length % F := by
  induction buf using sliceLoop.induct F with
  | case1 buf h ih =>
    rw [sliceLoop_eq, if_pos h]
    obtain ⟨ih1, ih2⟩ := ih
    refine ⟨?_, ?_⟩
    · simp only [List.length_cons]
      rw [ih1, List.length_drop, Nat.div_eq buf.length F, if_pos h]
    · rw [ih2, List.length_drop, Nat.mod_eq buf.length F, if_pos h]
  | case2 buf h =>
    rw [sliceLoop_eq, if_neg h]
    have hlt : buf.length < F := by omega
    exact ⟨by simp [Nat.div_eq_of_lt hlt], by simp [Nat.mod_eq_of_lt hlt]⟩

/-- The leftover buffer is strictly smaller than one frame. -/
theorem sliceLoop_rem_lt (F : Nat) (hF : 0 < F) (buf : List α) :
    ((sliceLoop F buf).2).length < F := by
  rw [(sliceLoop_count F hF buf).2]
  exact Nat.mod_lt _ hF

/-- One Frame Buffer push, as performed per inbound chunk by
`VoicePipeline.run` (pipeline.py lines 66-72): append the chunk to
`_vad_buffer`, then run the slicing loop with `VAD_CHUNK_SIZE`. -/
def vadPush (buf chunk : List α) : List (List α) × List α :=
  sliceLoop VAD_CHUNK_SIZE (buf ++ chunk)

/-- A full session of Frame Buffer pushes: fold `vadPush` over the
inbound chunks, collecting all emitted frames in order. -/
def vadPushAll (buf : List α) : List (List α) → List (List α) × List α
  | [] => ([], buf)
  | c :: cs =>
    let p := vadPush buf c
    let rest := vadPushAll p.2 cs
    (p.1 ++ rest.1, rest.2)

theorem vadPushAll_join (buf : List α) (cs : List (List α)) :
    ((vadPushAll buf cs).1).flatten ++ (vadPushAll buf cs).2 = buf ++ cs.flatten := by
  induction cs generalizing buf with
  | nil => simp [vadPushAll]
  | cons c cs ih =>
    simp only [vadPushAll, List.flatten_append, List.append_assoc, List.flatten_cons]
    rw [ih, ← List.append_assoc, vadPush, sliceLoop_join]
    simp

theorem vadPushAll_frames_length (buf : List α) (cs : List (List α)) :
    ∀ f ∈ (vadPushAll buf cs).1, f.length = VAD_CHUNK_SIZE := by
  induction cs generalizing buf with
  | nil => simp [vadPushAll]
  | cons c cs ih =>
    intro f hf
    simp only [vadPushAll, List.mem_append] at hf
    rcases hf with hf | hf
    · exact sliceLoop_frames_length _ _ f hf
    · exact ih _ f hf

theorem vadPushAll_rem_lt (buf : List α) (hb : buf.length < VAD_CHUNK_SIZE)
    (cs : List (List α)) : ((vadPushAll buf cs).2).length < VAD_CHUNK_SIZE := by
  induction cs generalizing buf with
  | nil => simpa [vadPushAll] using hb
  | cons c cs ih =>
    exact ih _ (sliceLoop_rem_lt VAD_CHUNK_SIZE (by decide) (buf ++ c))

/-! ### Recognition Feed: `SenseVoiceStreamHandler` (asr.py lines 76-131)

The external `model.generate` call is an oracle
`gen : List Nat → Bool → Option String` taking the chunk and the
`is_final` flag; `some text` models a result that is a nonempty list whose
head carries a `"text"` entry, `none` models any other shape. -/

/-- Constant `chunk_size = 9600` in `SenseVoiceStreamHandler._process_buffer`
(asr.py line 94). -/
def ASR_CHUNK_SIZE : Nat := 9600

/-- The state of one `SenseVoiceStreamHandler`: `_buffer` and
`_finalized_transcript` (asr.py lines 86-87). -/
structure ASRState where
  buffer : List Nat
  finalized : Option String
deriving DecidableEq

/-- Method `SenseVoiceStreamHandler._process_buffer` (asr.py lines 90-113):
`while len(buffer) >= 9600 or (is_final and len(buffer) > 0)`, slice a
chunk off the front, call `model.generate` with
`is_final = is_final and buffer is now empty`, and record the result text
as the finalized transcript only when that flag was set. -/
def processBuffer (gen : List Nat → Bool → Option String) (isFinal : Bool)
    (s : ASRState) : ASRState :=
  if h : ASR_CHUNK_SIZE ≤ s.buffer.length ∨ (isFinal = true ∧ 0 < s.buffer.length) then
    let chunk := s.buffer.take ASR_CHUNK_SIZE
    let rest := s.buffer.drop ASR_CHUNK_SIZE
    let finalFlag := isFinal && rest.isEmpty
    let newFinalized :=
      match gen chunk finalFlag with
      | some text => if finalFlag then some text else s.finalized
      | none => s.finalized
    processBuffer gen isFinal ⟨rest, newFinalized⟩
  else s
termination_by s.buffer.length
decreasing_by simp only [ASR_CHUNK_SIZE, List.length_drop] at *; omega

theorem processBuffer_eq (gen : List Nat → Bool → Option String) (isFinal : Bool)
    (s : ASRState) :
    processBuffer gen isFinal s =
      if ASR_CHUNK_SIZE ≤ s.buffer.length ∨ (isFinal = true ∧ 0 < s.buffer.length) then
        processBuffer gen isFinal
          ⟨s.buffer.drop ASR_CHUNK_SIZE,
           match gen (s.buffer.take ASR_CHUNK_SIZE) (isFinal && (s.buffer.drop ASR_CHUNK_SIZE).isEmpty) with
           | some text => if isFinal && (s.buffer.drop ASR_CHUNK_SIZE).isEmpty then some text else s.finalized
           | none => s.finalized⟩
      else s := by
  rw [processBuffer]
  split <;> rfl

/-- Method `SenseVoiceStreamHandler.feed_audio` (asr.py lines 115-118): append the
chunk to the buffer, then process it with `is_final=False`. -/
def feedAudio (gen : List Nat → Bool → Option String) (chunk : List Nat)
    (s : ASRState) : ASRState :=
  processBuffer gen false ⟨s.buffer ++ chunk, s.finalized⟩

/-- Method `SenseVoiceStreamHandler.get_finalized_transcript` (asr.py lines 120-126).
`if self._finalized_transcript:` is Python truthiness: both `None` and the
empty string fail the test, so an empty stored transcript is neither
surfaced nor cleared. Returns the surfaced transcript and the new state. -/
def getFinalizedTranscript (s : ASRState) : Option String × ASRState :=
  match s.finalized with
  | some t => if t = "" then (none, s) else (some t, ⟨s.buffer, none⟩)
  | none => (none, s)

/-- Method `SenseVoiceStreamHandler.__aexit__` (asr.py lines 128-131): process any
remaining buffered audio as the final segment. -/
def handlerAexit (gen : List Nat → Bool → Option String) (s : ASRState) : ASRState :=
  processBuffer gen true s

/-! ### Language model: `OpenAILLMProvider.chat` (llm.py lines 84-124) -/

/-- Outcome of the one external `chat.completions.create` call. -/
inductive LLMOutcome
  | ok (content : Option String)
  | openaiError (msg : String)
  | otherError
deriving DecidableEq

/-- The apology sent when the OpenAI client raises (llm.py line 120,
`f"抱歉，调用语言模型时遇到了一个错误：{e}"`). -/
def llmApiErrorReply (msg : String) : String :=
  "抱歉，调用语言模型时遇到了一个错误：" ++ msg

/-- The apology sent on any other exception (llm.py line 124). -/
def llmUnknownErrorReply : String :=
  "抱歉，处理您的请求时遇到了一个未知错误。"

/-- Method `OpenAILLMProvider.chat` (llm.py lines 84-124): empty input returns the
empty string; on success the message content (`None` coerced to `""`) is
stripped; an `OpenAIError` is caught and turned into a fixed apology
message; any other exception is caught and turned into another fixed
apology message. No branch raises. -/
def chat (text : String) (out : LLMOutcome) : String :=
  if text = "" then ""
  else
    match out with
    | .ok content => (content.getD "").trim
    | .openaiError msg => llmApiErrorReply msg
    | .otherError => llmUnknownErrorReply

/-! ### Synthesis: `EdgeTTSProvider.stream` (tts.py lines 70-101) -/

/-- One element yielded by `communicate.stream()`: either an audio chunk or
some other message type. A mid-stream service failure simply truncates the
raw sequence (tts.py lines 98-101: the handler logs and stops). -/
inductive TTSChunk
  | audio (data : List Nat)
  | other
deriving DecidableEq

/-- Method `EdgeTTSProvider.stream` (tts.py lines 70-101): empty text yields
nothing; otherwise the audio-typed chunks of the raw stream are yielded in
order and everything else is skipped. -/
def ttsStream (text : String) (raw : List TTSChunk) : List (List Nat) :=
  if text = "" then []
  else raw.filterMap fun c =>
    match c with
    | .audio d => some d
    | .other => none

/-! ### ReplyTask: `VoicePipeline._process_llm_and_tts` (pipeline.py lines 102-122)

Suspension points of the task body, numbered: point 0 is the `await
self.llm.chat(text)`; point `n + 1` is the fetch-and-send of chunk `n`
(with point `len` the final generator fetch that ends the loop). An
interruption is an exception landing at one suspension point: either the
`asyncio.CancelledError` injected by `task.cancel()`, or any other
exception. -/

inductive Interrupt
  | cancelledError
  | otherError
deriving DecidableEq

/-- Terminal state of a ReplyTask. -/
inductive TaskResult
  | completed
  | cancelled
  | failed
deriving DecidableEq

/-- Environment of one ReplyTask run: the LLM call outcome, the raw
synthesis stream, and the interruption (if any) with the suspension point
at which it lands. -/
structure TaskEnv where
  llmOut : LLMOutcome
  ttsRaw : List TTSChunk
  interrupt : Option (Nat × Interrupt)

/-- Body of the `try:` block of `_process_llm_and_tts` (pipeline.py lines 110-117):
chat, then synthesis, then forward each chunk to the websocket in order.
Returns the chunks actually sent and the exception that escaped the body,
if any. An interruption at point `n + 1` beyond the last fetch (that is,
`n` past the chunk count) never fires. -/
def replyTaskBody (text : String) (env : TaskEnv) : List (List Nat) × Option Interrupt :=
  match env.interrupt with
  | some (0, i) => ([], some i)
  | some (n + 1, i) =>
    let chunks := ttsStream (chat text env.llmOut) env.ttsRaw
    if n ≤ chunks.length then (chunks.take n, some i) else (chunks, none)
  | none => (ttsStream (chat text env.llmOut) env.ttsRaw, none)

/-- Method `VoicePipeline._process_llm_and_tts` (pipeline.py lines 102-122): run the
body; `except asyncio.CancelledError` logs and ends the task *cancelled*;
`except Exception` logs and ends the task *failed*; a clean run ends
*completed*. Result: terminal state, chunks sent to the outbound channel,
and the exception propagated to the caller (none in every case, because
both handlers swallow). -/
def processLLMAndTTS (text : String) (env : TaskEnv) :
    TaskResult × List (List Nat) × Option Interrupt :=
  let body := replyTaskBody text env
  match body.2 with
  | none => (.completed, body.1, none)
  | some .cancelledError => (.cancelled, body.1, none)
  | some .otherError => (.failed, body.1, none)

/-! ### Barge-in Controller (pipeline.py lines 75-80) -/

/-- The barge-in check run for one frame inside the VAD while-loop
(pipeline.py lines 75-80): if the frame is speech and
`self.active_llm_task and not self.active_llm_task.done()`, call
`task.cancel()` and clear the handle. `active` is the handle (a task id);
`activeDone` is the value `active_llm_task.done()` reports at this moment.
Returns the new handle and the ids on which cancel was called. -/
def onVoiceActivity (isSpeech activeDone : Bool) (active : Option Nat) :
    Option Nat × List Nat :=
  if isSpeech then
    match active with
    | some id => if !activeDone then (none, [id]) else (some id, [])
    | none => (none, [])
  else (active, [])

/-- Running `n` consecutive speech-positive frames through the barge-in check,
accumulating the cancel calls issued. -/
def speechFrames (activeDone : Bool) : Nat → Option Nat → Option Nat × List Nat
  | 0, a => (a, [])
  | n + 1, a =>
    let p := onVoiceActivity true activeDone a
    let rest := speechFrames activeDone n p.1
    (rest.1, p.2 ++ rest.2)

/-! ### Session Orchestrator: `VoicePipeline.run` (pipeline.py lines 50-100) -/

/-- Observable events of one session, in program order. -/
inductive Ev
  | feed (chunk : List Nat)
  | vadCheck (frame : List Nat) (isSpeech : Bool)
  | cancel (id : Nat)
  | polled (r : Option String)
  | spawn (id : Nat) (text : String)
  | awaitTask (id : Nat)
  | finalFlush
deriving DecidableEq

/-- Session state of `VoicePipeline` plus bookkeeping of the cancel calls
issued and the tasks spawned. -/
structure SessionState where
  vadBuffer : List Nat
  active : Option Nat
  asr : ASRState
  cancelled : List Nat
  spawned : List (Nat × String)
deriving DecidableEq

/-- The fresh per-connection state (pipeline.py lines 46-48 and the start of
`run`). -/
def SessionState.init : SessionState :=
  ⟨[], none, ⟨[], none⟩, [], []⟩

/-- Per-iteration environment: the ASR generate oracle, the VAD oracle
`self.vad.is_speech`, the value `active_llm_task.done()` reports during
this iteration, and the identity asyncio would give a task created now. -/
structure StepEnv where
  gen : List Nat → Bool → Option String
  isSpeech : List Nat → Bool
  activeDone : Bool
  newId : Nat

/-- The VAD while-loop body applied to the sliced frames in order
(pipeline.py lines 69-80): check each frame and run the barge-in logic on
speech frames. Returns the final handle, the cancel calls issued, and the
trace of events. -/
def vadLoop (isSpeech : List Nat → Bool) (activeDone : Bool) :
    List (List Nat) → Option Nat → Option Nat × (List Nat × List Ev)
  | [], a => (a, ([], []))
  | f :: fs, a =>
    let sp := isSpeech f
    let p := onVoiceActivity sp activeDone a
    let rest := vadLoop isSpeech activeDone fs p.1
    (rest.1, (p.2 ++ rest.2.1, (Ev.vadCheck f sp :: p.2.map Ev.cancel) ++ rest.2.2))

/-- One iteration of the ingest loop of `VoicePipeline.run`
(pipeline.py lines 59-90) on one inbound chunk:
1. `await asr_stream.feed_audio(audio_chunk)`;
2. `self._vad_buffer.extend(audio_chunk)` and the slicing while-loop with
   the barge-in check on each speech frame;
3. `transcript = await asr_stream.get_finalized_transcript()`;
4. `if transcript:` create the background task, overwriting
   `self.active_llm_task` (the previous task, if any, is neither cancelled
   nor awaited here). -/
def stepChunk (env : StepEnv) (chunk : List Nat) (s : SessionState) :
    SessionState × List Ev :=
  let asr1 := feedAudio env.gen chunk s.asr
  let sl := sliceLoop VAD_CHUNK_SIZE (s.vadBuffer ++ chunk)
  let vl := vadLoop env.isSpeech env.activeDone sl.1 s.active
  let pr := getFinalizedTranscript asr1
  match pr.1 with
  | some t =>
    if t = "" then
      (⟨sl.2, vl.1, pr.2, s.cancelled ++ vl.2.1, s.spawned⟩,
       Ev.feed chunk :: vl.2.2 ++ [Ev.polled pr.1])
    else
      (⟨sl.2, some env.newId, pr.2, s.cancelled ++ vl.2.1, s.spawned ++ [(env.newId, t)]⟩,
       Ev.feed chunk :: vl.2.2 ++ [Ev.polled pr.1, Ev.spawn env.newId t])
  | none =>
    (⟨sl.2, vl.1, pr.2, s.cancelled ++ vl.2.1, s.spawned⟩,
     Ev.feed chunk :: vl.2.2 ++ [Ev.polled pr.1])

/-- The ingest loop over the inbound chunks in arrival order; step `k`
receives the environment `env k`. -/
def runChunks (env : Nat → StepEnv) : List (List Nat) → Nat → SessionState →
    SessionState × List Ev
  | [], _, s => (s, [])
  | c :: cs, k, s =>
    let p := stepChunk (env k) c s
    let rest := runChunks env cs (k + 1) p.1
    (rest.1, p.2 ++ rest.2)

/-- Why the ingest loop ended (pipeline.py lines 92-95): the client
disconnected (`WebSocketDisconnect`), some other exception was raised, or
the byte iterator finished. Both except clauses only log, so the cause has
no effect on the cleanup that follows. -/
inductive ExitCause
  | disconnect
  | streamError
  | clientClosed

/-- Cleanup: the `finally:` block of `VoicePipeline.run` (pipeline.py lines 96-100),
followed by `SenseVoiceStreamHandler.__aexit__` (asr.py lines 128-131),
which the `async with` runs on every exit path: if a task is active and
not done, call `task.cancel()` (the handle is not cleared and the task is
*not* awaited); then process the residual ASR buffer as the final
segment. `activeDone` is the value `active_llm_task.done()` reports now. -/
def teardown (gen : List Nat → Bool → Option String) (activeDone : Bool)
    (s : SessionState) : SessionState × List Ev :=
  let c :=
    match s.active with
    | some id => if !activeDone then ([id], [Ev.cancel id]) else ([], [])
    | none => ([], [])
  (⟨s.vadBuffer, s.active, handlerAexit gen s.asr, s.cancelled ++ c.1, s.spawned⟩,
   c.2 ++ [Ev.finalFlush])

/-- A whole session: the ingest loop over the chunks received before the
exit, then — whatever the exit cause — the cleanup. `tearDone` is the
done() value of the active task at teardown time. -/
def runSession (env : Nat → StepEnv) (gen : List Nat → Bool → Option String)
    (chunks : List (List Nat)) (cause : ExitCause) (tearDone : Bool)
    (s₀ : SessionState) : SessionState × List Ev :=
  let r := runChunks env chunks 0 s₀
  let t := teardown gen tearDone r.1
  (t.1, r.2 ++ t.2)

/-! ### Helper lemmas -/

theorem flatten_length_const (F : Nat) (l : List (List Nat))
    (h : ∀ f ∈ l, f.length = F) : l.flatten.length = F * l.length := by
  induction l with
  | nil => simp
  | cons a l ih =>
    simp only [List.flatten_cons, List.length_append, List.length_cons]
    rw [h a (List.mem_cons_self a l), ih (fun f hf => h f (List.mem_cons_of_mem a hf))]
    ring

/-- The VAD while-loop only checks frames and issues cancel calls: its trace
holds no other kind of event. -/
theorem vadLoop_evs (is : List Nat → Bool) (d : Bool) (fs : List (List Nat))
    (a : Option Nat) :
    ∀ e ∈ (vadLoop is d fs a).2.2,
      (∃ f sp, e = Ev.vadCheck f sp) ∨ ∃ id, e = Ev.cancel id := by
  induction fs generalizing a with
  | nil => simp [vadLoop]
  | cons f fs ih =>
    intro e he
    simp only [vadLoop, List.cons_append, List.mem_cons, List.mem_append] at he
    rcases he with he | he | he
    · exact Or.inl ⟨f, _, he⟩
    · obtain ⟨id, _, rfl⟩ := List.mem_map.mp he
      exact Or.inr ⟨id, rfl⟩
    · exact ih _ e he

/-! ### C3: the Frame Buffer slicing invariant -/

/-- C3: For every sequence of pushes whose total byte length is `T`, with
frame size 1024: exactly `⌊T/1024⌋` frames are emitted across all calls;
the concatenation of the emitted frames followed by the leftover buffer is
exactly the concatenated input (each byte emitted once, in arrival order),
so the emitted frames are a prefix of the input; every frame holds exactly
1024 bytes; and after the final pass the buffered remainder holds
`T mod 1024` bytes, strictly fewer than one frame. -/
theorem frame_buffer_slices_exactly (cs : List (List Nat)) :
    ((vadPushAll ([] : List Nat) cs).1).length = cs.flatten.length / 1024 ∧
    ((vadPushAll ([] : List Nat) cs).1).flatten ++ (vadPushAll ([] : List Nat) cs).2
      = cs.flatten ∧
    ((vadPushAll ([] : List Nat) cs).1).flatten <+: cs.flatten ∧
    (∀ f ∈ (vadPushAll ([] : List Nat) cs).1, f.length = 1024) ∧
    ((vadPushAll ([] : List Nat) cs).2).length = cs.flatten.length % 1024 ∧
    ((vadPushAll ([] : List Nat) cs).2).length < 1024 := by
  have hjoin := vadPushAll_join ([] : List Nat) cs
  have hlen := vadPushAll_frames_length ([] : List Nat) cs
  have hrem : ((vadPushAll ([] : List Nat) cs).2).length < 1024 :=
    vadPushAll_rem_lt ([] : List Nat) (by decide) cs
  simp only [List.nil_append] at hjoin
  have hlen1024 : ∀ f ∈ (vadPushAll ([] : List Nat) cs).1, f.length = 1024 := by
    simpa [VAD_CHUNK_SIZE] using hlen
  have hfl : ((vadPushAll ([] : List Nat) cs).1).flatten.length
      = 1024 * ((vadPushAll ([] : List Nat) cs).1).length :=
    flatten_length_const 1024 _ hlen1024
  have htot : 1024 * ((vadPushAll ([] : List Nat) cs).1).length
      + ((vadPushAll ([] : List Nat) cs).2).length = cs.flatten.length := by
    have h := congrArg List.length hjoin
    simpa [List.length_append, hfl] using h
  exact ⟨by omega, hjoin, ⟨_, hjoin⟩, hlen1024, by omega, hrem⟩

/-! ### C9: empty input yields empty output -/

/-- C9: `chat` on the empty string returns the empty string, whatever the
API call would have done, and `stream` on the empty string yields no audio
chunks, whatever the service would have produced. -/
theorem empty_input_yields_empty_output (out : LLMOutcome) (raw : List TTSChunk) :
    chat "" out = "" ∧ ttsStream "" raw = [] := by
  constructor <;> simp [chat, ttsStream]

/-! ### C7: recognition poll non-repetition -/

/-- C7: A poll surfaces at most one pending segment (its result is an
optional value), and a segment once consumed is gone: polling twice with no
new finalized segment in between returns none the second time, and whenever
the first poll surfaced a segment the stored segment has been cleared. -/
theorem poll_non_repetition (s : ASRState) :
    (getFinalizedTranscript (getFinalizedTranscript s).2).1 = none ∧
    ((getFinalizedTranscript s).1 = none ∨
      ((getFinalizedTranscript s).2).finalized = none) := by
  rcases s with ⟨b, f⟩
  cases f with
  | none => simp [getFinalizedTranscript]
  | some t =>
    by_cases ht : t = "" <;> simp [getFinalizedTranscript, ht]

/-! ### C2: the Barge-in Controller -/

/-- C2: If a frame is speech-positive while a task is active and not yet
terminal, that task is cancelled and the handle cleared; a speech-negative
frame, or a speech-positive frame with no active task, changes nothing and
raises nothing; any number of consecutive speech-positive frames with no
active task are no-ops; and a task cancelled before sending its `n`-th
chunk sends nothing beyond the first `n` chunks. -/
theorem barge_in_cancels_else_noop :
    (∀ id : Nat, onVoiceActivity true false (some id) = (none, [id])) ∧
    (∀ (d : Bool) (a : Option Nat), onVoiceActivity false d a = (a, [])) ∧
    (∀ d : Bool, onVoiceActivity true d none = (none, [])) ∧
    (∀ (d : Bool) (n : Nat), speechFrames d n none = (none, [])) ∧
    (∀ (text : String) (lo : LLMOutcome) (raw : List TTSChunk) (n : Nat),
      (processLLMAndTTS text ⟨lo, raw, some (n + 1, Interrupt.cancelledError)⟩).2.1
        = (ttsStream (chat text lo) raw).take n ∧
      (processLLMAndTTS text ⟨lo, raw, some (0, Interrupt.cancelledError)⟩).2.1
        = []) := by
  refine ⟨fun id => rfl, fun d a => by simp [onVoiceActivity],
    fun d => by simp [onVoiceActivity], fun d n => ?_, fun text lo raw n => ⟨?_, rfl⟩⟩
  · induction n with
    | zero => rfl
    | succ n ih => simp [speechFrames, onVoiceActivity, ih]
  · simp only [processLLMAndTTS, replyTaskBody]
    by_cases hn : n ≤ (ttsStream (chat text lo) raw).length
    · rw [if_pos hn]
    · rw [if_neg hn]
      exact (@List.take_of_length_le _ n (ttsStream (chat text lo) raw) (by omega)).symm

/-! ### More helper lemmas: trace shapes -/

/-- Predicate picking the feed events of a trace. -/
def isFeedEv : Ev → Bool
  | .feed _ => true
  | _ => false

/-- Predicate picking the poll events of a trace. -/
def isPolledEv : Ev → Bool
  | .polled _ => true
  | _ => false

/-- The exact shape of one ingest-loop iteration trace: the feed first, then
the voice-activity section, then exactly one poll, then a spawn exactly
when the poll surfaced a truthy transcript. -/
theorem stepChunk_trace (env : StepEnv) (chunk : List Nat) (s : SessionState) :
    (stepChunk env chunk s).2
      = Ev.feed chunk
          :: (vadLoop env.isSpeech env.activeDone
                (sliceLoop VAD_CHUNK_SIZE (s.vadBuffer ++ chunk)).1 s.active).2.2
          ++ [Ev.polled (getFinalizedTranscript (feedAudio env.gen chunk s.asr)).1]
          ++ (match (getFinalizedTranscript (feedAudio env.gen chunk s.asr)).1 with
              | some t => if t = "" then [] else [Ev.spawn env.newId t]
              | none => []) := by
  rcases h : (getFinalizedTranscript (feedAudio env.gen chunk s.asr)).1 with _ | t
  · simp [stepChunk, h]
  · by_cases ht : t = "" <;> simp [stepChunk, h, ht]

/-- Every event of one iteration trace is a feed, a VAD check, a cancel, a
poll or a spawn; in particular the trace holds no final flush and no
task await. -/
theorem stepChunk_ev_kinds (env : StepEnv) (chunk : List Nat) (s : SessionState) :
    ∀ e ∈ (stepChunk env chunk s).2,
      e = Ev.feed chunk ∨ (∃ f sp, e = Ev.vadCheck f sp) ∨ (∃ id, e = Ev.cancel id)
        ∨ (∃ r, e = Ev.polled r) ∨ ∃ id t, e = Ev.spawn id t := by
  rw [stepChunk_trace]
  intro e he
  simp only [List.cons_append, List.mem_cons, List.mem_append, List.mem_singleton,
    List.not_mem_nil, or_assoc] at he
  rcases he with rfl | he | rfl | he
  · exact Or.inl rfl
  · rcases vadLoop_evs _ _ _ _ e he with h | h
    · exact Or.inr (Or.inl h)
    · exact Or.inr (Or.inr (Or.inl h))
  · exact Or.inr (Or.inr (Or.inr (Or.inl ⟨_, rfl⟩)))
  · rcases hp : (getFinalizedTranscript (feedAudio env.gen chunk s.asr)).1 with _ | t
    · rw [hp] at he; simp at he
    · rw [hp] at he
      by_cases ht : t = ""
      · simp [ht] at he
      · simp only [false_or, if_neg ht, List.mem_singleton] at he
        subst he
        exact Or.inr (Or.inr (Or.inr (Or.inr ⟨_, _, rfl⟩)))

theorem runChunks_no_flush_await (env : Nat → StepEnv) (chunks : List (List Nat))
    (k : Nat) (s : SessionState) :
    Ev.finalFlush ∉ (runChunks env chunks k s).2 ∧
    ∀ i, Ev.awaitTask i ∉ (runChunks env chunks k s).2 := by
  induction chunks generalizing k s with
  | nil => simp [runChunks]
  | cons c cs ih =>
    have hstep := stepChunk_ev_kinds (env k) c s
    constructor
    · intro hmem
      rcases List.mem_append.mp hmem with hmem | hmem
      · rcases hstep _ hmem with h | ⟨_, _, h⟩ | ⟨_, h⟩ | ⟨_, h⟩ | ⟨_, _, h⟩ <;> cases h
      · exact (ih (k + 1) _).1 hmem
    · intro i hmem
      rcases List.mem_append.mp hmem with hmem | hmem
      · rcases hstep _ hmem with h | ⟨_, _, h⟩ | ⟨_, h⟩ | ⟨_, h⟩ | ⟨_, _, h⟩ <;> cases h
      · exact (ih (k + 1) _).2 i hmem

theorem vadLoop_filter_feed (is : List Nat → Bool) (d : Bool)
    (fs : List (List Nat)) (a : Option Nat) :
    (vadLoop is d fs a).2.2.filter isFeedEv = [] ∧
    (vadLoop is d fs a).2.2.filter isPolledEv = [] := by
  constructor <;>
  · rw [List.filter_eq_nil]
    intro e he
    rcases vadLoop_evs is d fs a e he with ⟨f, sp, rfl⟩ | ⟨id, rfl⟩ <;> simp [isFeedEv, isPolledEv]

theorem stepChunk_filter_feed (env : StepEnv) (chunk : List Nat) (s : SessionState) :
    (stepChunk env chunk s).2.filter isFeedEv = [Ev.feed chunk] := by
  rw [stepChunk_trace]
  simp only [List.cons_append, List.filter_cons, List.filter_append,
    (vadLoop_filter_feed _ _ _ _).1]
  rcases hp : (getFinalizedTranscript (feedAudio env.gen chunk s.asr)).1 with _ | t
  · simp [isFeedEv]
  · by_cases ht : t = "" <;> simp [isFeedEv, ht]

theorem stepChunk_filter_polled (env : StepEnv) (chunk : List Nat) (s : SessionState) :
    (stepChunk env chunk s).2.filter isPolledEv
      = [Ev.polled (getFinalizedTranscript (feedAudio env.gen chunk s.asr)).1] := by
  rw [stepChunk_trace]
  simp only [List.cons_append, List.filter_cons, List.filter_append,
    (vadLoop_filter_feed _ _ _ _).2]
  rcases hp : (getFinalizedTranscript (feedAudio env.gen chunk s.asr)).1 with _ | t
  · simp [isPolledEv]
  · by_cases ht : t = "" <;> simp [isPolledEv, ht]

theorem runChunks_filter_feed (env : Nat → StepEnv) (chunks : List (List Nat))
    (k : Nat) (s : SessionState) :
    (runChunks env chunks k s).2.filter isFeedEv = chunks.map Ev.feed := by
  induction chunks generalizing k s with
  | nil => simp [runChunks]
  | cons c cs ih =>
    simp only [runChunks, List.filter_append, stepChunk_filter_feed, ih, List.map_cons]
    rfl

theorem runChunks_filter_polled (env : Nat → StepEnv) (chunks : List (List Nat))
    (k : Nat) (s : SessionState) :
    ((runChunks env chunks k s).2.filter isPolledEv).length = chunks.length := by
  induction chunks generalizing k s with
  | nil => simp [runChunks]
  | cons c cs ih =>
    simp [runChunks, List.filter_append, stepChunk_filter_polled, ih]

/-! ### C8: ReplyTask failure containment -/

/-- C8: A ReplyTask never propagates an exception to its caller: with no
interruption it completes after sending every synthesis chunk in order; an
unexpected failure at the language-model await or at any chunk send leaves
the task *failed* with only the chunks sent before the failure; a
cancellation landing at any suspension point leaves the task *cancelled*
with no chunk sent beyond the cancellation point. -/
theorem reply_task_failures_contained (text : String) (lo : LLMOutcome)
    (raw : List TTSChunk) (n : Nat) (io : Option (Nat × Interrupt)) :
    ((processLLMAndTTS text ⟨lo, raw, io⟩).2.2 = none) ∧
    (processLLMAndTTS text ⟨lo, raw, none⟩
      = (.completed, ttsStream (chat text lo) raw, none)) ∧
    ((processLLMAndTTS text ⟨lo, raw, some (0, .otherError)⟩).1 = .failed ∧
      (processLLMAndTTS text ⟨lo, raw, some (0, .otherError)⟩).2.1 = []) ∧
    ((processLLMAndTTS text ⟨lo, raw, some (0, .cancelledError)⟩).1 = .cancelled) ∧
    ((processLLMAndTTS text ⟨lo, raw, some (n + 1, .otherError)⟩).2.1
      = (ttsStream (chat text lo) raw).take n) ∧
    ((processLLMAndTTS text ⟨lo, raw, some (n + 1, .otherError)⟩).1
      = if n ≤ (ttsStream (chat text lo) raw).length then .failed else .completed) ∧
    ((processLLMAndTTS text ⟨lo, raw, some (n + 1, .cancelledError)⟩).1
      = if n ≤ (ttsStream (chat text lo) raw).length then .cancelled
        else .completed) := by
  refine ⟨?_, rfl, ⟨rfl, rfl⟩, rfl, ?_, ?_, ?_⟩
  · rcases io with _ | ⟨k, i⟩
    · rfl
    · rcases k with _ | k
      · cases i <;> rfl
      · simp only [processLLMAndTTS, replyTaskBody]
        by_cases hn : k ≤ (ttsStream (chat text lo) raw).length
        · rw [if_pos hn]; cases i <;> rfl
        · rw [if_neg hn]
  · simp only [processLLMAndTTS, replyTaskBody]
    by_cases hn : n ≤ (ttsStream (chat text lo) raw).length
    · rw [if_pos hn]
    · rw [if_neg hn]
      exact (@List.take_of_length_le _ n (ttsStream (chat text lo) raw) (by omega)).symm
  · simp only [processLLMAndTTS, replyTaskBody]
    by_cases hn : n ≤ (ttsStream (chat text lo) raw).length
    · rw [if_pos hn, if_pos hn]
    · rw [if_neg hn, if_neg hn]
  · simp only [processLLMAndTTS, replyTaskBody]
    by_cases hn : n ≤ (ttsStream (chat text lo) raw).length
    · rw [if_pos hn, if_pos hn]
    · rw [if_neg hn, if_neg hn]

/-! ### C6: ingest-loop ordering -/

/-- C6: One ingest-loop iteration performs, in order: the recognition
feed (first event, before any frame-buffer processing), then the per-frame
voice-activity checks and barge-in cancel calls, then exactly one
recognition poll, then a spawn exactly when the poll surfaced a truthy
transcript; and across a session the feeds happen once per chunk in
arrival order, with exactly one poll per chunk. -/
theorem ingest_loop_processes_in_order (env : StepEnv) (chunk : List Nat)
    (s : SessionState) (envs : Nat → StepEnv) (chunks : List (List Nat))
    (k : Nat) (s₀ : SessionState) :
    (∃ vadEvs,
      ((stepChunk env chunk s).2
        = Ev.feed chunk :: vadEvs
            ++ [Ev.polled (getFinalizedTranscript (feedAudio env.gen chunk s.asr)).1]
            ++ (match (getFinalizedTranscript (feedAudio env.gen chunk s.asr)).1 with
                | some t => if t = "" then [] else [Ev.spawn env.newId t]
                | none => [])) ∧
      ∀ e ∈ vadEvs, (∃ f sp, e = Ev.vadCheck f sp) ∨ ∃ id, e = Ev.cancel id) ∧
    ((runChunks envs chunks k s₀).2.filter isFeedEv = chunks.map Ev.feed) ∧
    (((runChunks envs chunks k s₀).2.filter isPolledEv).length = chunks.length) :=
  ⟨⟨_, stepChunk_trace env chunk s, vadLoop_evs _ _ _ _⟩,
   runChunks_filter_feed envs chunks k s₀,
   runChunks_filter_polled envs chunks k s₀⟩

/-! ### C10: an empty finalized transcript is never surfaced -/

/-- Processing the buffer with `is_final=False` can never set
`_finalized_transcript`: the per-chunk final flag is
`is_final and len(buffer) == 0`, which is false throughout. -/
theorem processBuffer_false_finalized (gen : List Nat → Bool → Option String)
    (s : ASRState) : (processBuffer gen false s).finalized = s.finalized := by
  induction s using processBuffer.induct gen false with
  | case1 s h c r ff nf ih =>
    rw [processBuffer_eq, if_pos h]
    have hff : ff = false := rfl
    have hnf : nf = s.finalized := by
      have hdef : nf = match gen c ff with
          | some text => if _h : ff = true then some text else s.finalized
          | none => s.finalized := rfl
      rw [hdef, hff]
      cases gen c false <;> rfl
    exact ih.trans hnf
  | case2 s h =>
    rw [processBuffer_eq, if_neg h]

theorem feedAudio_finalized (gen : List Nat → Bool → Option String)
    (chunk : List Nat) (s : ASRState) :
    (feedAudio gen chunk s).finalized = s.finalized :=
  processBuffer_false_finalized gen _

/-- C10: The poll never surfaces an empty transcript — it returns none
rather than the empty string — and an ingest-loop iteration on a session
whose stored finalized segment is the empty string spawns no ReplyTask and
emits no spawn event. -/
theorem empty_transcript_never_spawns (s : ASRState) (env : StepEnv)
    (chunk : List Nat) (st : SessionState) (h : st.asr.finalized = some "") :
    (getFinalizedTranscript s).1 ≠ some "" ∧
    (stepChunk env chunk st).1.spawned = st.spawned ∧
    ∀ id t, Ev.spawn id t ∉ (stepChunk env chunk st).2 := by
  have hasr : (feedAudio env.gen chunk st.asr).finalized = some "" := by
    rw [feedAudio_finalized]; exact h
  have hpr : (getFinalizedTranscript (feedAudio env.gen chunk st.asr)).1 = none := by
    simp [getFinalizedTranscript, hasr]
  refine ⟨?_, ?_, ?_⟩
  · rcases s with ⟨b, f⟩
    cases f with
    | none => simp [getFinalizedTranscript]
    | some t => by_cases ht : t = "" <;> simp [getFinalizedTranscript, ht]
  · simp [stepChunk, hpr]
  · intro id t hmem
    rw [stepChunk_trace, hpr] at hmem
    simp only [List.cons_append, List.mem_cons, List.mem_append, List.mem_singleton,
      List.not_mem_nil, or_false, or_assoc] at hmem
    rcases hmem with hmem | hmem | hmem
    · cases hmem
    · rcases vadLoop_evs _ _ _ _ _ hmem with ⟨f, sp, hf⟩ | ⟨i, hi⟩
      · cases hf
      · cases hi
    · cases hmem

/-- C10 witness: The theorem at a concrete input: a session whose stored
finalized transcript is the empty string, receiving an empty chunk. -/
theorem empty_transcript_never_spawns_witness :
    (getFinalizedTranscript ⟨[], none⟩).1 ≠ some "" ∧
    (stepChunk ⟨fun _ _ => none, fun _ => false, false, 0⟩ []
        ⟨[], none, ⟨[], some ""⟩, [], []⟩).1.spawned
      = (⟨[], none, ⟨[], some ""⟩, [], []⟩ : SessionState).spawned ∧
    ∀ id t, Ev.spawn id t ∉
      (stepChunk ⟨fun _ _ => none, fun _ => false, false, 0⟩ []
        ⟨[], none, ⟨[], some ""⟩, [], []⟩).2 :=
  empty_transcript_never_spawns ⟨[], none⟩ ⟨fun _ _ => none, fun _ => false, false, 0⟩
    [] ⟨[], none, ⟨[], some ""⟩, [], []⟩ rfl

/-! ### C4: behaviour when the language-model call fails -/

/-- C4 counterexample: With a failing language-model call the user does
not get silence: `chat` swallows the `OpenAIError` and returns a fixed,
nonempty apology string, and the ReplyTask synthesizes and sends that
apology over the outbound audio channel — here one audio chunk `[1, 2, 3]`
is sent, refuting both "no reply audio is sent" and "no error message is
spoken". -/
theorem llm_failure_is_not_silent :
    chat "你好" (.openaiError "connection error") ≠ "" ∧
    (processLLMAndTTS "你好"
        ⟨.openaiError "connection error", [TTSChunk.audio [1, 2, 3]], none⟩).2.1
      = [[1, 2, 3]] := by
  exact ⟨by decide, rfl⟩

/-- C4 amended: For every ReplyTask in which the language-model call
fails, `chat` returns a fixed nonempty apology message instead of raising;
the ReplyTask completes normally, synthesizing that apology and forwarding
its audio to the outbound channel (the user hears a spoken error message,
not silence); the failure is logged, not raised across the session
boundary. -/
theorem llm_failure_speaks_apology (text msg : String) (raw : List TTSChunk)
    (ht : text ≠ "") :
    chat text (.openaiError msg) = llmApiErrorReply msg ∧
    llmApiErrorReply msg ≠ "" ∧
    processLLMAndTTS text ⟨.openaiError msg, raw, none⟩
      = (.completed, ttsStream (llmApiErrorReply msg) raw, none) := by
  refine ⟨by simp [chat, ht], ?_, ?_⟩
  · intro hcontra
    have h1 := congrArg String.length hcontra
    rw [llmApiErrorReply, String.length_append] at h1
    have h2 : 0 < ("抱歉，调用语言模型时遇到了一个错误：" : String).length := by decide
    simp at h1
    omega
  · simp [processLLMAndTTS, replyTaskBody, chat, ht]

/-- C4 amended witness: The amended theorem at a concrete input. -/
theorem llm_failure_speaks_apology_witness :
    chat "hi" (.openaiError "x") = llmApiErrorReply "x" ∧
    llmApiErrorReply "x" ≠ "" ∧
    processLLMAndTTS "hi" ⟨.openaiError "x", [], none⟩
      = (.completed, ttsStream (llmApiErrorReply "x") [], none) :=
  llm_failure_speaks_apology "hi" "x" [] (by decide)

/-! ### C5: session teardown -/

/-- C5 counterexample: Teardown with task 1 active and not yet terminal:
the trace is exactly a cancel request followed by the final flush — the
terminal state of the cancelled task is never awaited before the
recognition resource is released (no await event exists anywhere in the
teardown trace). -/
theorem teardown_never_awaits_task :
    (teardown (fun _ _ => none) false ⟨[], some 1, ⟨[], none⟩, [], [(1, "hi")]⟩).2
      = [Ev.cancel 1, Ev.finalFlush] ∧
    ∀ id, Ev.awaitTask id ∉
      (teardown (fun _ _ => none) false ⟨[], some 1, ⟨[], none⟩, [], [(1, "hi")]⟩).2 := by
  refine ⟨rfl, ?_⟩
  intro id hmem
  have h : (teardown (fun _ _ => none) false
      ⟨[], some 1, ⟨[], none⟩, [], [(1, "hi")]⟩).2 = [Ev.cancel 1, Ev.finalFlush] := rfl
  rw [h] at hmem
  simp at hmem

/-- C5 amended: On session teardown, whatever the exit cause: if a
ReplyTask is active and not yet terminal its cancellation is requested
(but its terminal state is not awaited — cancel is immediately followed by
the resource release); the recognition resource is released on every exit
path, the final-segment flush occurring exactly once and as the last
action of the session; no await of the task ever happens. -/
theorem session_teardown_cancels_and_flushes_once
    (env : Nat → StepEnv) (gen : List Nat → Bool → Option String)
    (chunks : List (List Nat)) (cause : ExitCause) (d : Bool) (s₀ : SessionState)
    (v : List Nat) (a : ASRState) (c : List Nat) (sp : List (Nat × String)) (id : Nat) :
    ((runSession env gen chunks cause d s₀).2.count Ev.finalFlush = 1) ∧
    (∀ i, Ev.awaitTask i ∉ (runSession env gen chunks cause d s₀).2) ∧
    ((runSession env gen chunks cause d s₀).2.getLast? = some Ev.finalFlush) ∧
    (teardown gen false ⟨v, some id, a, c, sp⟩
      = (⟨v, some id, handlerAexit gen a, c ++ [id], sp⟩,
         [Ev.cancel id, Ev.finalFlush])) ∧
    ((runSession env gen chunks cause d s₀).1.asr
      = handlerAexit gen (runChunks env chunks 0 s₀).1.asr) := by
  have hrun := runChunks_no_flush_await env chunks 0 s₀
  have hform : ∀ st : SessionState, (teardown gen d st).2 = [Ev.finalFlush] ∨
      ∃ j, (teardown gen d st).2 = [Ev.cancel j, Ev.finalFlush] := by
    intro st
    rcases st with ⟨v', a', asr', c', sp'⟩
    rcases a' with _ | j
    · exact Or.inl rfl
    · cases d
      · exact Or.inr ⟨j, rfl⟩
      · exact Or.inl rfl
  have htear : (teardown gen d (runChunks env chunks 0 s₀).1).2.count Ev.finalFlush = 1 ∧
      (∀ i, Ev.awaitTask i ∉ (teardown gen d (runChunks env chunks 0 s₀).1).2) ∧
      (teardown gen d (runChunks env chunks 0 s₀).1).2.getLast? = some Ev.finalFlush := by
    rcases hform (runChunks env chunks 0 s₀).1 with h | ⟨j, h⟩ <;> rw [h]
    · exact ⟨by simp, by simp, rfl⟩
    · refine ⟨by simp [List.count_cons], by simp, rfl⟩
  refine ⟨?_, ?_, ?_, rfl, rfl⟩
  · rw [runSession, List.count_append]
    rw [List.count_eq_zero.mpr hrun.1, htear.1]
  · intro i hmem
    rcases List.mem_append.mp hmem with hmem | hmem
    · exact hrun.2 i hmem
    · exact htear.2.1 i hmem
  · show ((runChunks env chunks 0 s₀).2
        ++ (teardown gen d (runChunks env chunks 0 s₀).1).2).getLast? = some Ev.finalFlush
    rcases hform (runChunks env chunks 0 s₀).1 with h | ⟨j, h⟩ <;> rw [h]
    · exact List.getLast?_concat _
    · rw [show [Ev.cancel j, Ev.finalFlush] = [Ev.cancel j] ++ [Ev.finalFlush] from rfl,
        ← List.append_assoc]
      exact List.getLast?_concat _

/-! ### C1: the single-active-task invariant -/

/-- C1: The code evaluated at the failing input: task 1 is active and not
yet terminal (`done()` is false) when the recognition feed holds a second
finalized transcript `"hello"`. The next ingest-loop iteration spawns
task 2 and overwrites the active handle — no cancel call is issued
(`cancelled` stays empty) and the transcript is not queued — so both
ReplyTasks are live at once and can write to the outbound channel
concurrently. -/
theorem second_transcript_spawned_without_cancel :
    stepChunk ⟨fun _ _ => none, fun _ => false, false, 2⟩ []
        ⟨[], some 1, ⟨[], some "hello"⟩, [], [(1, "hi")]⟩
      = (⟨[], some 2, ⟨[], none⟩, [], [(1, "hi"), (2, "hello")]⟩,
         [Ev.feed [], Ev.polled (some "hello"), Ev.spawn 2 "hello"]) := by
  have hasr : feedAudio (fun _ _ => none) [] ⟨[], some "hello"⟩
      = ⟨[], some "hello"⟩ := by
    rw [feedAudio, processBuffer_eq, if_neg (by decide)]
    rfl
  have hsl : sliceLoop VAD_CHUNK_SIZE ([] : List Nat) = ([], []) := by
    rw [sliceLoop_eq, if_neg (by decide)]
  simp [stepChunk, hasr, hsl, vadLoop, getFinalizedTranscript]

end Xiaolian
